import Mathlib

/-!
Shallow embedding of the `annotai` media pipeline (src/video.rs, src/capture.rs)
and proofs about its frame sampler, stream mapping, packet loop, transcoders
and end-of-stream drain.

Machine integers (i64 timestamps) are modelled as `Int`; ffmpeg `Rational`
time bases as pairs of `Int`; fallible paths return explicit outcome types.
-/

namespace Annotai

/-- Integer division rounding to the nearest integer, ties away from zero;
this is ffmpeg's `AV_ROUND_NEAR_INF` used by `av_rescale_q`, hence by the
`Rescale::rescale` calls in the source. -/
def round_near_div (n d : Int) : Int :=
  if 0 ≤ n then (2 * n + d) / (2 * d) else -((2 * (-n) + d) / (2 * d))

/-- `a.rescale(src, dst)` from the source: `av_rescale_q(a, src, dst)`, i.e.
`a * src.num * dst.den / (src.den * dst.num)` rounded to nearest. -/
def rescale_q (a : Int) (src dst : Int × Int) : Int :=
  round_near_div (a * src.1 * dst.2) (src.2 * dst.1)

/-- Stream media kinds distinguished by `transcode` and the samplers. -/
inductive Medium
  | video
  | audio
  | subtitle
  | other
  deriving DecidableEq, Repr

/-- One frame emitted by the video decoder, as the sampler observes it:
its timestamp (if any) and whether `ImageBuffer::from_raw` on its RGB data
succeeds. -/
structure DecodedFrame where
  ts : Option Int
  buffer_ok : Bool
  deriving DecidableEq, Repr

/-- Filesystem effects performed by `capture_base64` in video.rs. -/
inductive Effect
  | mkdir (path : String)
  | write_file (path : String)
  deriving DecidableEq, Repr

/-- Error values `capture_base64` returns to its caller. -/
inductive CaptureError
  | stream_not_found
  | missing_timestamp
  deriving DecidableEq, Repr

/-- Overall outcome of a `capture_base64` run: a normal return with the
accepted frame timestamps and the filesystem effects, an error returned to
the caller, or a process panic (`unwrap` on a failed pixel-buffer build). -/
inductive CaptureOutcome
  | ok (pts : List Int) (effects : List Effect)
  | err (e : CaptureError)
  | panicked (msg : String)
  deriving DecidableEq, Repr

/-- The `{:04}` zero padding of the frame counter in
`format!("output/capture/frame_{:04}.jpg", frame_count)`. -/
def pad4 (n : Nat) : String :=
  let s := toString n
  String.mk (List.replicate (4 - s.length) '0') ++ s

/-- Mutable state of the sampling loop in video.rs `capture_base64`:
`next_pts` (the next sampling threshold), the JPEG file counter, the
accepted timestamps (in order), and the filesystem effects so far. -/
structure CaptureState where
  next_pts : Int
  frame_count : Nat
  accepted : List Int
  effects : List Effect
  deriving DecidableEq, Repr

/-- Result of examining one decoded frame inside the drain closure:
continue the inner loop, break out of it, return an error, or panic. -/
inductive FrameStep
  | cont (st : CaptureState)
  | stop (st : CaptureState)
  | fail (e : CaptureError)
  | panicked (msg : String)
  deriving DecidableEq, Repr

/-- One iteration of the `while decoder.receive_frame(..)` body in video.rs
`capture_base64`: frames without a timestamp are fatal; frames before
`next_pts` are skipped; a frame past `end_pts` breaks the loop; otherwise
the frame is accepted, `next_pts` advances by `interval`, the RGB buffer is
built (panicking on failure) and the JPEG file is written. -/
def process_frame (interval end_pts : Int) (st : CaptureState) (f : DecodedFrame) :
    FrameStep :=
  match f.ts with
  | none => .fail .missing_timestamp
  | some pts =>
    if pts < st.next_pts then .cont st
    else if end_pts < pts then .stop st
    else if f.buffer_ok then
      .cont
        { next_pts := st.next_pts + interval
          frame_count := st.frame_count + 1
          accepted := st.accepted ++ [pts]
          effects := st.effects ++
            [.write_file ("output/capture/frame_" ++ pad4 st.frame_count ++ ".jpg")] }
    else .panicked "Failed to create image buffer"

/-- Result of draining one batch of decoded frames (the frames available
after feeding one packet, or after end-of-file). -/
inductive BatchRes
  | done (st : CaptureState)
  | fail (e : CaptureError)
  | panicked (msg : String)
  deriving DecidableEq, Repr

/-- The `receive_and_process_decoded_frames` closure of video.rs
`capture_base64` applied to the frames one packet yields: a `stop`
(`break`) ends this batch only; errors and panics abort everything. -/
def process_batch (interval end_pts : Int) :
    CaptureState → List DecodedFrame → BatchRes
  | st, [] => .done st
  | st, f :: fs =>
    match process_frame interval end_pts st f with
    | .cont st' => process_batch interval end_pts st' fs
    | .stop st' => .done st'
    | .fail e => .fail e
    | .panicked m => .panicked m

/-- The packet loop of video.rs `capture_base64`: each video packet yields a
batch of decoded frames, and the final end-of-stream drain yields one more
batch; batches are processed in order. -/
def process_batches (interval end_pts : Int) :
    CaptureState → List (List DecodedFrame) → BatchRes
  | st, [] => .done st
  | st, b :: bs =>
    match process_batch interval end_pts st b with
    | .done st' => process_batches interval end_pts st' bs
    | .fail e => .fail e
    | .panicked m => .panicked m

/-- video.rs `capture_base64`: fails if the container has no video stream;
otherwise rescales the window `[start_sec, start_sec+duration_sec)` and the
interval into the video stream's time base, creates `output/capture`, and
runs the sampling loop over the decoded-frame batches of the video stream. -/
def capture_base64 (mediums : List Medium) (start_sec duration_sec interval_msec : Int)
    (time_base : Int × Int) (batches : List (List DecodedFrame)) : CaptureOutcome :=
  if mediums.contains Medium.video then
    let start_pts := rescale_q start_sec (1, 1) time_base
    let end_pts := rescale_q (start_sec + duration_sec) (1, 1) time_base
    let interval := rescale_q interval_msec (1, 1000) time_base
    match process_batches interval end_pts
        ⟨start_pts, 0, [], [.mkdir "output/capture"]⟩ batches with
    | .done st => .ok st.accepted st.effects
    | .fail e => .err e
    | .panicked m => .panicked m
  else .err .stream_not_found

/-- Loop invariant of the sampling loop: the next sampling threshold equals
`start_pts` plus (number of accepted frames) · `interval`; the JPEG counter
tracks the accepted count; the effect log is the directory creation followed
by one numbered JPEG write per accepted frame; and the `k`-th accepted PTS
lies between the `k`-th sampling threshold and `end_pts`. -/
def CaptureInv (S I E : Int) (st : CaptureState) : Prop :=
  st.next_pts = S + (st.accepted.length : Int) * I
  ∧ st.frame_count = st.accepted.length
  ∧ st.effects = .mkdir "output/capture" ::
      (List.range st.accepted.length).map
        (fun n => .write_file ("output/capture/frame_" ++ pad4 n ++ ".jpg"))
  ∧ ∀ k (hk : k < st.accepted.length),
      S + (k : Int) * I ≤ st.accepted[k] ∧ st.accepted[k] ≤ E

lemma process_frame_cont (I E : Int) (st : CaptureState) (f : DecodedFrame)
    (st' : CaptureState) (h : process_frame I E st f = .cont st') :
    (∃ pts, f.ts = some pts ∧ pts < st.next_pts ∧ st' = st)
    ∨ (∃ pts, f.ts = some pts ∧ st.next_pts ≤ pts ∧ pts ≤ E ∧ f.buffer_ok = true ∧
        st' = ⟨st.next_pts + I, st.frame_count + 1, st.accepted ++ [pts],
          st.effects ++
            [.write_file ("output/capture/frame_" ++ pad4 st.frame_count ++ ".jpg")]⟩) := by
  obtain ⟨ts, bok⟩ := f
  cases ts with
  | none => simp [process_frame] at h
  | some pts =>
    simp only [process_frame] at h
    split_ifs at h with h1 h2 h3
    · exact Or.inl ⟨pts, rfl, h1, (FrameStep.cont.injEq _ _).mp h |>.symm⟩
    · exact Or.inr ⟨pts, rfl, not_lt.mp h1, not_lt.mp h2, h3,
        ((FrameStep.cont.injEq _ _).mp h).symm⟩

lemma process_frame_stop (I E : Int) (st : CaptureState) (f : DecodedFrame)
    (st' : CaptureState) (h : process_frame I E st f = .stop st') :
    ∃ pts, f.ts = some pts ∧ st.next_pts ≤ pts ∧ E < pts ∧ st' = st := by
  obtain ⟨ts, bok⟩ := f
  cases ts with
  | none => simp [process_frame] at h
  | some pts =>
    simp only [process_frame] at h
    split_ifs at h with h1 h2 h3
    exact ⟨pts, rfl, not_lt.mp h1, h2, ((FrameStep.stop.injEq _ _).mp h).symm⟩

lemma captureInv_accept (S I E : Int) (st : CaptureState) (pts : Int)
    (hinv : CaptureInv S I E st) (hlo : st.next_pts ≤ pts) (hhi : pts ≤ E) :
    CaptureInv S I E
      ⟨st.next_pts + I, st.frame_count + 1, st.accepted ++ [pts],
        st.effects ++
          [.write_file ("output/capture/frame_" ++ pad4 st.frame_count ++ ".jpg")]⟩ := by
  obtain ⟨hn, hc, he, hk⟩ := hinv
  refine ⟨?_, ?_, ?_, ?_⟩
  · simp only [List.length_append, List.length_cons, List.length_nil]
    rw [hn]; push_cast; ring
  · simp [hc]
  · simp only [List.length_append, List.length_cons, List.length_nil,
      List.range_succ, List.map_append, he, hc]
    simp
  · intro k hk'
    simp only [List.length_append, List.length_cons, List.length_nil] at hk'
    rcases Nat.lt_or_ge k st.accepted.length with hlt | hge
    · rw [List.getElem_append_left hlt]
      exact hk k hlt
    · have hke : k = st.accepted.length := by omega
      subst hke
      have hget : (st.accepted ++ [pts])[st.accepted.length] = pts := by simp
      rw [hget]
      constructor
      · rw [← hn]; exact hlo
      · exact hhi

lemma process_batch_inv (S I E : Int) :
    ∀ (fs : List DecodedFrame) (st st' : CaptureState),
      process_batch I E st fs = .done st' →
      CaptureInv S I E st →
      CaptureInv S I E st' ∧
        ∃ δ, st'.accepted = st.accepted ++ δ ∧
          δ.Sublist (fs.filterMap DecodedFrame.ts) := by
  intro fs
  induction fs with
  | nil =>
    intro st st' h hinv
    simp only [process_batch, BatchRes.done.injEq] at h
    subst h
    exact ⟨hinv, [], by simp, by simp⟩
  | cons f fs ih =>
    intro st st' h hinv
    rw [process_batch] at h
    cases hstep : process_frame I E st f with
    | cont st1 =>
      rw [hstep] at h
      rcases process_frame_cont I E st f st1 hstep with
        ⟨pts, hts, _, hst1⟩ | ⟨pts, hts, hlo, hhi, _, hst1⟩
      · rw [hst1] at h
        obtain ⟨hinv', δ, hδ, hsub⟩ := ih st st' h hinv
        exact ⟨hinv', δ, hδ, by rw [List.filterMap_cons, hts]; exact hsub.cons pts⟩
      · subst hst1
        obtain ⟨hinv', δ, hδ, hsub⟩ :=
          ih _ st' h (captureInv_accept S I E st pts hinv hlo hhi)
        refine ⟨hinv', pts :: δ, ?_, ?_⟩
        · simp only at hδ
          simp [hδ]
        · rw [List.filterMap_cons, hts]
          exact hsub.cons₂ pts
    | stop st1 =>
      rw [hstep] at h
      obtain ⟨pts, hts, _, _, hst1⟩ := process_frame_stop I E st f st1 hstep
      subst hst1
      simp only [BatchRes.done.injEq] at h
      subst h
      exact ⟨hinv, [], by simp, by simp⟩
    | fail e => rw [hstep] at h; cases h
    | panicked m => rw [hstep] at h; cases h

lemma process_batches_inv (S I E : Int) :
    ∀ (bs : List (List DecodedFrame)) (st st' : CaptureState),
      process_batches I E st bs = .done st' →
      CaptureInv S I E st →
      CaptureInv S I E st' ∧
        ∃ δ, st'.accepted = st.accepted ++ δ ∧
          δ.Sublist (bs.flatten.filterMap DecodedFrame.ts) := by
  intro bs
  induction bs with
  | nil =>
    intro st st' h hinv
    simp only [process_batches, BatchRes.done.injEq] at h
    subst h
    exact ⟨hinv, [], by simp, by simp⟩
  | cons b bs ih =>
    intro st st' h hinv
    rw [process_batches] at h
    cases hb : process_batch I E st b with
    | done st1 =>
      rw [hb] at h
      obtain ⟨hinv1, δ1, hδ1, hsub1⟩ := process_batch_inv S I E b st st1 hb hinv
      obtain ⟨hinv2, δ2, hδ2, hsub2⟩ := ih st1 st' h hinv1
      refine ⟨hinv2, δ1 ++ δ2, by simp [hδ2, hδ1], ?_⟩
      rw [List.flatten_cons, List.filterMap_append]
      exact hsub1.append hsub2
    | fail e => rw [hb] at h; cases h
    | panicked m => rw [hb] at h; cases h

/-- Successful runs of `capture_base64`: bounds and spacing of the accepted
PTS values, the effect log, and the fact that the accepted sequence is a
sublist of the decoded timestamps. -/
lemma capture_base64_inv (ms : List Medium) (ss ds im : Int) (tb : Int × Int)
    (bs : List (List DecodedFrame)) (acc : List Int) (effs : List Effect)
    (hok : capture_base64 ms ss ds im tb bs = .ok acc effs) :
    (∀ k (hk : k < acc.length),
        rescale_q ss (1, 1) tb + (k : Int) * rescale_q im (1, 1000) tb ≤ acc[k]
        ∧ acc[k] ≤ rescale_q (ss + ds) (1, 1) tb)
    ∧ effs = .mkdir "output/capture" ::
        (List.range acc.length).map
          (fun n => .write_file ("output/capture/frame_" ++ pad4 n ++ ".jpg"))
    ∧ acc.Sublist (bs.flatten.filterMap DecodedFrame.ts) := by
  simp only [capture_base64] at hok
  split_ifs at hok
  cases hrun : process_batches (rescale_q im (1, 1000) tb)
      (rescale_q (ss + ds) (1, 1) tb)
      ⟨rescale_q ss (1, 1) tb, 0, [], [.mkdir "output/capture"]⟩ bs with
  | done st =>
    rw [hrun] at hok
    simp only [CaptureOutcome.ok.injEq] at hok
    obtain ⟨hacc, heff⟩ := hok
    have hinit : CaptureInv (rescale_q ss (1, 1) tb) (rescale_q im (1, 1000) tb)
        (rescale_q (ss + ds) (1, 1) tb)
        ⟨rescale_q ss (1, 1) tb, 0, [], [.mkdir "output/capture"]⟩ := by
      refine ⟨by simp, rfl, by simp, ?_⟩
      intro k hk
      simp at hk
    obtain ⟨⟨hn, hc, he, hk⟩, δ, hδ, hsub⟩ :=
      process_batches_inv _ _ _ bs _ st hrun hinit
    subst hacc heff
    refine ⟨hk, he, ?_⟩
    rw [hδ]
    simpa using hsub
  | fail e => rw [hrun] at hok; cases hok
  | panicked m => rw [hrun] at hok; cases hok

/-- Does a `capture_base64` outcome return an error value to the caller? -/
def returns_error : CaptureOutcome → Bool
  | .err _ => true
  | _ => false

/-- Claim C1, as stated, is false on the code: with window start 0, window
end 1000 and interval 10 (all already in stream ticks, time base 1/1), the
sampler accepts frames at PTS 25 and 30, which differ by 5 < 10, because
the sampling threshold advances by the interval from its previous value,
not from the accepted PTS; it accepts a frame at PTS exactly `S+D` = 1000,
which lies outside the half-open window `[S, S+D)`, because only
`pts > end_pts` stops sampling; and with out-of-order decoder output it
accepts the non-increasing sequence 100, 50. -/
theorem capture_sampling_window_cex :
    capture_base64 [Medium.video] 0 1000 10000 (1, 1)
        [[⟨some 25, true⟩, ⟨some 30, true⟩]]
      = .ok [25, 30]
          [.mkdir "output/capture", .write_file "output/capture/frame_0000.jpg",
            .write_file "output/capture/frame_0001.jpg"]
    ∧ rescale_q 10000 (1, 1000) (1, 1) = 10
    ∧ (30 : Int) - 25 < 10
    ∧ capture_base64 [Medium.video] 0 1000 10000 (1, 1) [[⟨some 1000, true⟩]]
      = .ok [1000]
          [.mkdir "output/capture", .write_file "output/capture/frame_0000.jpg"]
    ∧ rescale_q (0 + 1000) (1, 1) (1, 1) = 1000
    ∧ ¬((1000 : Int) < 1000)
    ∧ capture_base64 [Medium.video] 0 2000 10000 (1, 1)
        [[⟨some 100, true⟩], [⟨some 50, true⟩]]
      = .ok [100, 50]
          [.mkdir "output/capture", .write_file "output/capture/frame_0000.jpg",
            .write_file "output/capture/frame_0001.jpg"]
    ∧ ¬((100 : Int) < 50) :=
  ⟨by rfl, by rfl, by decide, by rfl, by rfl, by decide, by rfl, by decide⟩

/-- Claim C1 (amended): if the decoder emits frames in strictly increasing
PTS order and the rescaled interval is nonnegative, then the accepted PTS
sequence of `capture_base64` is strictly increasing, the `k`-th accepted
PTS is at least `S + k·I` (the sampling thresholds, not the accepted
frames, are spaced by `I`), and every accepted PTS lies in the closed
window `[S, S+D]` (with `S`, `S+D`, `I` rescaled into the stream's time
base; a frame at exactly `S+D` is accepted). -/
theorem capture_sampling_window_amended
    (ms : List Medium) (ss ds im : Int) (tb : Int × Int)
    (bs : List (List DecodedFrame)) (acc : List Int) (effs : List Effect)
    (hI : 0 ≤ rescale_q im (1, 1000) tb)
    (hmono : (bs.flatten.filterMap DecodedFrame.ts).Pairwise (· < ·))
    (hok : capture_base64 ms ss ds im tb bs = .ok acc effs) :
    acc.Pairwise (· < ·)
    ∧ (∀ k (hk : k < acc.length),
        rescale_q ss (1, 1) tb + (k : Int) * rescale_q im (1, 1000) tb ≤ acc[k])
    ∧ ∀ x ∈ acc,
        rescale_q ss (1, 1) tb ≤ x ∧ x ≤ rescale_q (ss + ds) (1, 1) tb := by
  obtain ⟨hbound, heff, hsub⟩ := capture_base64_inv ms ss ds im tb bs acc effs hok
  refine ⟨hmono.sublist hsub, fun k hk => (hbound k hk).1, ?_⟩
  intro x hx
  obtain ⟨k, hk, rfl⟩ := List.getElem_of_mem hx
  refine ⟨?_, (hbound k hk).2⟩
  have h0 : (0 : Int) ≤ (k : Int) * rescale_q im (1, 1000) tb :=
    mul_nonneg (Int.natCast_nonneg k) hI
  have := (hbound k hk).1
  omega

/-- Claim C1 witness: a concrete successful run satisfying the amended
window, ordering and spacing properties. -/
theorem capture_sampling_window_witness :
    List.Pairwise (· < ·) [(0 : Int), 12]
    ∧ (∀ k (hk : k < ([(0 : Int), 12]).length),
        rescale_q 0 (1, 1) (1, 1) + (k : Int) * rescale_q 10000 (1, 1000) (1, 1)
          ≤ ([(0 : Int), 12])[k])
    ∧ ∀ x ∈ [(0 : Int), 12],
        rescale_q 0 (1, 1) (1, 1) ≤ x ∧ x ≤ rescale_q (0 + 1000) (1, 1) (1, 1) :=
  capture_sampling_window_amended [Medium.video] 0 1000 10000 (1, 1)
    [[⟨some 0, true⟩, ⟨some 12, true⟩]] [0, 12]
    [.mkdir "output/capture", .write_file "output/capture/frame_0000.jpg",
      .write_file "output/capture/frame_0001.jpg"]
    (by decide) (by decide) (by rfl)

/-- Claim C10: every successful run of the video.rs frame sampler creates
the directory `output/capture` and writes one JPEG file per accepted frame,
named `output/capture/frame_NNNN.jpg` with a zero-padded counter that
increments by one per accepted frame, in order. -/
theorem capture_file_effects
    (ms : List Medium) (ss ds im : Int) (tb : Int × Int)
    (bs : List (List DecodedFrame)) (acc : List Int) (effs : List Effect)
    (hok : capture_base64 ms ss ds im tb bs = .ok acc effs) :
    effs = Effect.mkdir "output/capture" ::
      (List.range acc.length).map
        (fun n => Effect.write_file ("output/capture/frame_" ++ pad4 n ++ ".jpg")) :=
  (capture_base64_inv ms ss ds im tb bs acc effs hok).2.1

/-- Claim C10 witness: a concrete run writing two numbered frame files. -/
theorem capture_file_effects_witness :
    [Effect.mkdir "output/capture",
      Effect.write_file "output/capture/frame_0000.jpg",
      Effect.write_file "output/capture/frame_0001.jpg"]
    = Effect.mkdir "output/capture" ::
        (List.range ([(25 : Int), 30]).length).map
          (fun n => Effect.write_file ("output/capture/frame_" ++ pad4 n ++ ".jpg")) :=
  capture_file_effects [Medium.video] 0 1000 10000 (1, 1)
    [[⟨some 25, true⟩, ⟨some 30, true⟩]] [25, 30]
    [.mkdir "output/capture", .write_file "output/capture/frame_0000.jpg",
      .write_file "output/capture/frame_0001.jpg"] (by rfl)

/-- Claim C8, as stated, is false on the code in its third part: when the
RGB pixel-buffer construction fails for an accepted frame, the sampler does
not return an `ImageEncodingError` to the caller — the
`.ok_or("Failed to create image buffer").unwrap()` call panics, aborting
the process without returning an error value. -/
theorem capture_error_modes_cex :
    capture_base64 [Medium.video] 0 1000 1000 (1, 1) [[⟨some 0, false⟩]]
      = .panicked "Failed to create image buffer"
    ∧ returns_error
        (capture_base64 [Medium.video] 0 1000 1000 (1, 1) [[⟨some 0, false⟩]])
      = false :=
  ⟨by rfl, by rfl⟩

/-- Claim C8 (amended): the sampler returns a stream-not-found error when
the input has no video stream; a decoded frame without a timestamp is a
fatal missing-timestamp error returned to the caller, aborting sampling;
and a pixel-buffer construction failure on an accepted frame aborts the
process by panic (not by returning an error value). -/
theorem capture_error_modes_amended
    (ms : List Medium) (ss ds im : Int) (tb : Int × Int)
    (bs : List (List DecodedFrame)) (rest : List DecodedFrame) (b : Bool)
    (st : CaptureState) (I E p : Int) :
    (ms.contains Medium.video = false →
      capture_base64 ms ss ds im tb bs = .err .stream_not_found)
    ∧ process_frame I E st ⟨none, b⟩ = .fail .missing_timestamp
    ∧ (ms.contains Medium.video = true →
        capture_base64 ms ss ds im tb ((⟨none, b⟩ :: rest) :: bs)
          = .err .missing_timestamp)
    ∧ (ms.contains Medium.video = true →
        rescale_q ss (1, 1) tb ≤ p → p ≤ rescale_q (ss + ds) (1, 1) tb →
        capture_base64 ms ss ds im tb ([⟨some p, false⟩] :: bs)
          = .panicked "Failed to create image buffer") := by
  refine ⟨?_, by rfl, ?_, ?_⟩
  · intro h
    simp only [capture_base64]
    rw [if_neg (by simpa using h)]
  · intro h
    simp only [capture_base64]
    rw [if_pos h]
    rfl
  · intro h hp1 hp2
    have h1 : ¬ p < rescale_q ss (1, 1) tb := not_lt.mpr hp1
    have h2 : ¬ rescale_q (ss + ds) (1, 1) tb < p := not_lt.mpr hp2
    simp only [capture_base64]
    rw [if_pos h]
    simp only [process_batches, process_batch, process_frame]
    rw [if_neg h1, if_neg h2]
    rfl

/-- Claim C8 witness: the three failure modes at concrete inputs. -/
theorem capture_error_modes_witness :
    capture_base64 [Medium.audio] 0 1 1 (1, 1) [] = .err .stream_not_found
    ∧ process_frame 1 10 ⟨0, 0, [], []⟩ ⟨none, true⟩ = .fail .missing_timestamp
    ∧ capture_base64 [Medium.video] 0 1 1 (1, 1) [[⟨none, true⟩]]
      = .err .missing_timestamp
    ∧ capture_base64 [Medium.video] 0 1000 1000 (1, 1) [[⟨some 0, false⟩], []]
      = .panicked "Failed to create image buffer" :=
  ⟨(capture_error_modes_amended [Medium.audio] 0 1 1 (1, 1) [] [] true
      ⟨0, 0, [], []⟩ 1 10 0).1 (by rfl),
    (capture_error_modes_amended [Medium.audio] 0 1 1 (1, 1) [] [] true
      ⟨0, 0, [], []⟩ 1 10 0).2.1,
    (capture_error_modes_amended [Medium.video] 0 1 1 (1, 1) [] [] true
      ⟨0, 0, [], []⟩ 1 10 0).2.2.1 (by rfl),
    (capture_error_modes_amended [Medium.video] 0 1000 1000 (1, 1) [[]] [] true
      ⟨0, 0, [], []⟩ 1 10 0).2.2.2 (by rfl) (by decide) (by decide)⟩

/-- Does `transcode` give this medium an output mapping (video.rs 555-562)? -/
def is_mapped (m : Medium) : Bool :=
  m == .video || m == .audio || m == .subtitle

/-- Does `transcode` build a Transcoder for this medium (video.rs 565-582)? -/
def is_transcoded (m : Medium) : Bool :=
  m == .video || m == .audio

/-- The stream-classification loop of `transcode` (video.rs 550-584) with
the running `output_stream_index` counter `k`: video/audio/subtitle streams
get the next sequential slot, all other mediums get `-1`. -/
def stream_mapping_from (k : Int) : List Medium → List Int
  | [] => []
  | m :: ms =>
    if is_mapped m then k :: stream_mapping_from (k + 1) ms
    else (-1) :: stream_mapping_from k ms

/-- `stream_mapping` as `transcode` builds it, starting the counter at 0. -/
def stream_mapping (ms : List Medium) : List Int :=
  stream_mapping_from 0 ms

/-- The inputs of `transcode` that the packet loop depends on: the stream
mediums, the per-stream input time bases, and the trim window. -/
structure TranscodeCfg where
  mediums : List Medium
  tbs : List (Int × Int)
  start_sec : Int
  duration_sec : Int

def mapping_of (cfg : TranscodeCfg) (i : Nat) : Int :=
  (stream_mapping cfg.mediums).getD i (-1)

def medium_of (cfg : TranscodeCfg) (i : Nat) : Medium :=
  cfg.mediums.getD i .other

def time_base_of (cfg : TranscodeCfg) (i : Nat) : Int × Int :=
  cfg.tbs.getD i (0, 0)

/-- The per-packet trim cutoff (video.rs 611): `(start_sec + duration_sec)`
rescaled into the packet's own stream's input time base. -/
def end_pts_for (cfg : TranscodeCfg) (i : Nat) : Int :=
  rescale_q (cfg.start_sec + cfg.duration_sec) (1, 1) (time_base_of cfg i)

/-- One demuxed packet: its input stream index and optional PTS. -/
structure InputPacket where
  stream_index : Nat
  pts : Option Int
  deriving DecidableEq, Repr

/-- What the packet loop does with one surviving packet: feed it to that
stream's transcoder, or rescale-and-copy it (subtitle passthrough). -/
inductive PacketEvent
  | transcoded (stream_index : Nat) (pts : Int)
  | copied (stream_index : Nat) (pts : Int)
  deriving DecidableEq, Repr

def PacketEvent.source : PacketEvent → Nat
  | .transcoded i _ => i
  | .copied i _ => i

def mk_packet_event (cfg : TranscodeCfg) (i : Nat) (pts : Int) : PacketEvent :=
  if is_transcoded (medium_of cfg i) then .transcoded i pts else .copied i pts

/-- The packet loop of `transcode` (video.rs 605-628): unmapped streams'
packets are dropped; a surviving packet without a PTS aborts with an error;
a packet whose PTS reaches its stream-local cutoff breaks the whole loop;
otherwise the packet is processed and the loop continues. Returns the
processed-packet events in order, plus `some msg` when the loop aborted. -/
def packet_loop (cfg : TranscodeCfg) :
    List InputPacket → List PacketEvent × Option String
  | [] => ([], none)
  | p :: ps =>
    if mapping_of cfg p.stream_index < 0 then packet_loop cfg ps
    else
      match p.pts with
      | none => ([], some "No pts")
      | some pts =>
        if end_pts_for cfg p.stream_index ≤ pts then ([], none)
        else
          let r := packet_loop cfg ps
          (mk_packet_event cfg p.stream_index pts :: r.1, r.2)

lemma packet_loop_append_congr (cfg : TranscodeCfg) (l1 s t : List InputPacket)
    (h : packet_loop cfg s = packet_loop cfg t) :
    packet_loop cfg (l1 ++ s) = packet_loop cfg (l1 ++ t) := by
  induction l1 with
  | nil => exact h
  | cons a l1 ih =>
    simp only [List.cons_append, packet_loop]
    by_cases ha : mapping_of cfg a.stream_index < 0
    · rw [if_pos ha, if_pos ha]
      exact ih
    · rw [if_neg ha, if_neg ha]
      cases hap : a.pts with
      | none => rfl
      | some pa =>
        dsimp only
        by_cases hcut : end_pts_for cfg a.stream_index ≤ pa
        · rw [if_pos hcut, if_pos hcut]
        · rw [if_neg hcut, if_neg hcut]
          simp only [List.append_eq, ih]

/-- Claim C2: as soon as any mapped stream's packet has a PTS at or past
`(start+duration)` rescaled into that stream's own input time base, the
whole packet loop terminates: the result does not depend on any packet
after the breaking one, so nothing later is decoded, transcoded or
written before the drain. -/
theorem packet_loop_global_cutoff (cfg : TranscodeCfg) (l1 l2 : List InputPacket)
    (p : InputPacket) (q : Int)
    (hmap : 0 ≤ mapping_of cfg p.stream_index)
    (hpts : p.pts = some q)
    (hq : end_pts_for cfg p.stream_index ≤ q) :
    packet_loop cfg (l1 ++ p :: l2) = packet_loop cfg (l1 ++ [p]) := by
  refine packet_loop_append_congr cfg l1 _ _ ?_
  simp only [packet_loop]
  rw [if_neg (not_lt.mpr hmap), if_neg (not_lt.mpr hmap), hpts]
  simp only [if_pos hq]

/-- Claim C2 witness: a concrete loop where the second packet reaches the
cutoff and the trailing packet is ignored. -/
theorem packet_loop_global_cutoff_witness :
    packet_loop ⟨[Medium.video], [(1, 1)], 0, 10⟩
        ([⟨0, some 3⟩] ++ ⟨0, some 10⟩ :: [⟨0, some 4⟩])
      = packet_loop ⟨[Medium.video], [(1, 1)], 0, 10⟩ ([⟨0, some 3⟩] ++ [⟨0, some 10⟩]) :=
  packet_loop_global_cutoff ⟨[Medium.video], [(1, 1)], 0, 10⟩
    [⟨0, some 3⟩] [⟨0, some 4⟩] ⟨0, some 10⟩ 10 (by decide) (by rfl) (by decide)

/-- Claim C9: the output-mapping check precedes the PTS check: a packet of
an unmapped stream is dropped silently even when it has no PTS (the loop
result is as if the packet were absent), while a packet of a mapped stream
with no PTS aborts the loop with the "No pts" error. -/
theorem packet_loop_mapping_before_pts (cfg : TranscodeCfg) (p : InputPacket)
    (l1 l2 : List InputPacket) :
    (mapping_of cfg p.stream_index < 0 →
      packet_loop cfg (l1 ++ p :: l2) = packet_loop cfg (l1 ++ l2))
    ∧ (0 ≤ mapping_of cfg p.stream_index → p.pts = none →
        packet_loop cfg (p :: l2) = ([], some "No pts")) := by
  constructor
  · intro hm
    refine packet_loop_append_congr cfg l1 _ _ ?_
    simp only [packet_loop]
    rw [if_pos hm]
  · intro hm hnone
    simp only [packet_loop]
    rw [if_neg (not_lt.mpr hm), hnone]

/-- Claim C9 witness: an unmapped data-stream packet with no PTS is dropped
silently; a mapped video-stream packet with no PTS is a fatal error. -/
theorem packet_loop_mapping_before_pts_witness :
    packet_loop ⟨[Medium.video, Medium.other], [(1, 1), (1, 1)], 0, 10⟩
        ([⟨0, some 3⟩] ++ ⟨1, none⟩ :: [⟨0, some 4⟩])
      = packet_loop ⟨[Medium.video, Medium.other], [(1, 1), (1, 1)], 0, 10⟩
          ([⟨0, some 3⟩] ++ [⟨0, some 4⟩])
    ∧ packet_loop ⟨[Medium.video, Medium.other], [(1, 1), (1, 1)], 0, 10⟩ [⟨0, none⟩]
      = ([], some "No pts") :=
  ⟨(packet_loop_mapping_before_pts ⟨[Medium.video, Medium.other], [(1, 1), (1, 1)], 0, 10⟩
      ⟨1, none⟩ [⟨0, some 3⟩] [⟨0, some 4⟩]).1 (by decide),
    (packet_loop_mapping_before_pts ⟨[Medium.video, Medium.other], [(1, 1), (1, 1)], 0, 10⟩
      ⟨0, none⟩ [] []).2 (by decide) (by rfl)⟩

lemma stream_mapping_from_getD (ms : List Medium) :
    ∀ (k : Int) (i : Nat), i < ms.length →
      (stream_mapping_from k ms).getD i (-1)
        = if is_mapped (ms.getD i .other) then
            k + ((ms.take i).countP is_mapped : Int)
          else -1 := by
  induction ms with
  | nil => intro k i hi; simp at hi
  | cons m ms ih =>
    intro k i hi
    cases i with
    | zero =>
      by_cases hm : is_mapped m
      · simp [stream_mapping_from, hm]
      · simp [stream_mapping_from, hm]
    | succ i =>
      have hi' : i < ms.length := by simpa using hi
      by_cases hm : is_mapped m
      · rw [stream_mapping_from, if_pos hm, List.getD_cons_succ, ih (k + 1) i hi',
          List.getD_cons_succ, List.take_succ_cons,
          List.countP_cons_of_pos _ _ hm]
        split_ifs with h
        · push_cast; ring
        · rfl
      · rw [stream_mapping_from, if_neg hm, List.getD_cons_succ, ih k i hi',
          List.getD_cons_succ, List.take_succ_cons,
          List.countP_cons_of_neg _ _ (by simpa using hm)]

lemma packet_loop_events_mapped (cfg : TranscodeCfg) :
    ∀ (pkts : List InputPacket) (ev : PacketEvent),
      ev ∈ (packet_loop cfg pkts).1 → 0 ≤ mapping_of cfg ev.source := by
  intro pkts
  induction pkts with
  | nil => intro ev h; simp [packet_loop] at h
  | cons p ps ih =>
    intro ev h
    rw [packet_loop] at h
    by_cases hp : mapping_of cfg p.stream_index < 0
    · rw [if_pos hp] at h
      exact ih ev h
    · rw [if_neg hp] at h
      cases hap : p.pts with
      | none => rw [hap] at h; simp at h
      | some pa =>
        rw [hap] at h
        dsimp only at h
        by_cases hcut : end_pts_for cfg p.stream_index ≤ pa
        · rw [if_pos hcut] at h; simp at h
        · rw [if_neg hcut] at h
          simp only [List.mem_cons] at h
          cases h with
          | inl he =>
            subst he
            have hsrc : (mk_packet_event cfg p.stream_index pa).source
                = p.stream_index := by
              unfold mk_packet_event
              split_ifs <;> rfl
            rw [hsrc]
            exact not_lt.mp hp
          | inr he => exact ih ev he

/-- Claim C5: `transcode` maps the `i`-th input stream to the number of
video/audio/subtitle streams before it when its medium is one of those
three, and to `-1` otherwise; and every packet the loop processes (either
fed to a transcoder or copied to the output) belongs to a mapped stream,
so an unmapped stream's packets are never written. -/
theorem stream_mapping_spec (ms : List Medium) (i : Nat) (hi : i < ms.length)
    (cfg : TranscodeCfg) (pkts : List InputPacket) (ev : PacketEvent)
    (hev : ev ∈ (packet_loop cfg pkts).1) :
    (stream_mapping ms).getD i (-1)
      = (if is_mapped (ms.getD i .other) then
          ((ms.take i).countP is_mapped : Int)
        else -1)
    ∧ 0 ≤ mapping_of cfg ev.source := by
  constructor
  · have h := stream_mapping_from_getD ms 0 i hi
    rw [stream_mapping, h]
    split_ifs with hm
    · omega
    · rfl
  · exact packet_loop_events_mapped cfg pkts ev hev

/-- Claim C5 witness: in a container with streams video, data, subtitle,
the subtitle stream (index 2) gets output slot 1 (the data stream got
`-1`), and a concrete processed packet belongs to a mapped stream. -/
theorem stream_mapping_spec_witness :
    (stream_mapping [Medium.video, Medium.other, Medium.subtitle]).getD 2 (-1)
      = (if is_mapped ([Medium.video, Medium.other, Medium.subtitle].getD 2 .other) then
          (([Medium.video, Medium.other, Medium.subtitle].take 2).countP is_mapped : Int)
        else -1)
    ∧ 0 ≤ mapping_of ⟨[Medium.video], [(1, 1)], 0, 10⟩ (PacketEvent.transcoded 0 3).source :=
  stream_mapping_spec [Medium.video, Medium.other, Medium.subtitle] 2 (by decide)
    ⟨[Medium.video], [(1, 1)], 0, 10⟩ [⟨0, some 3⟩] (PacketEvent.transcoded 0 3)
    (by decide)

/-- Frames drained from a decoder with `receive_frame` in a `while .. is_ok`
loop: each frame must carry a timestamp (else the `"No timestamp"` error is
returned), and its PTS is set to that timestamp minus `start_pts` before
being emitted; returns the emitted PTS values plus an optional error. -/
def shift_frames (start_pts : Int) : List (Option Int) → List Int × Option String
  | [] => ([], none)
  | none :: _ => ([], some "No timestamp")
  | some t :: fs =>
    let r := shift_frames start_pts fs
    ((t - start_pts) :: r.1, r.2)

/-- `VideoTranscoder::receive_and_process_decoded_frames` (video.rs
253-268): the PTS values of the frames sent to the encoder. -/
def videoTranscoder_decoded_frames (start_sec : Int) (input_time_base : Int × Int)
    (frames : List (Option Int)) : List Int × Option String :=
  shift_frames (rescale_q start_sec (1, 1) input_time_base) frames

/-- `AudioTranscoder::receive_and_process_decoded_frames` (video.rs
476-490): the PTS values of the frames pushed into the filter graph. -/
def audioTranscoder_decoded_frames (start_sec : Int) (input_time_base : Int × Int)
    (frames : List (Option Int)) : List Int × Option String :=
  shift_frames (rescale_q start_sec (1, 1) input_time_base) frames

/-- Claim C4: for both transcoder variants, every frame sent onward (to the
encoder, resp. into the filter graph) carries PTS equal to the decoded
frame's original timestamp minus the window-start PTS, where the
window-start PTS is `start_sec` rescaled into that stream's own input time
base. -/
theorem decoded_frame_pts_shift (ss : Int) (tb : Int × Int) (ts : List Int) :
    videoTranscoder_decoded_frames ss tb (ts.map some)
      = (ts.map (fun t => t - rescale_q ss (1, 1) tb), none)
    ∧ audioTranscoder_decoded_frames ss tb (ts.map some)
      = (ts.map (fun t => t - rescale_q ss (1, 1) tb), none) := by
  have h : ∀ S : Int, shift_frames S (ts.map some) = (ts.map (fun t => t - S), none) := by
    intro S
    induction ts with
    | nil => rfl
    | cons t ts ih => simp [shift_frames, ih]
  exact ⟨h _, h _⟩

/-- The number of output streams the container actually gets: `add_stream`
is called once per video or audio input stream (inside the transcoder
constructors, video.rs 208 and 328); subtitle streams get a mapping slot
but no `add_stream`. -/
def num_output_streams (ms : List Medium) : Nat :=
  ms.countP is_transcoded

/-- video.rs 552 and 598-603: the `output_stream_time_base` vector is sized
by the number of INPUT streams, initialised to `Rational(0,0)`, and then
only the first `output.nb_streams()` entries are filled with the container's
assigned time bases after `write_header`. -/
def output_stream_time_base_vec (ms : List Medium) (assigned : Nat → Int × Int) :
    List (Int × Int) :=
  (List.range ms.length).map
    (fun i => if i < num_output_streams ms then assigned i else (0, 0))

/-- The destination time base the end-of-stream drain (video.rs 630-631)
uses for the transcoder stored under key `ist`: the `transcoders` HashMap is
keyed by INPUT stream index, and the drain indexes the vector with that key. -/
def drain_time_base_used (ms : List Medium) (assigned : Nat → Int × Int)
    (ist : Nat) : Int × Int :=
  (output_stream_time_base_vec ms assigned).getD ist (0, 0)

/-- The destination time base the main packet loop (video.rs 617) uses for
stream `ist`: the vector indexed by the stream's output mapping. -/
def packet_loop_time_base_used (ms : List Medium) (assigned : Nat → Int × Int)
    (ist : Nat) : Int × Int :=
  (output_stream_time_base_vec ms assigned).getD
    (((stream_mapping ms).getD ist (-1)).toNat) (0, 0)

/-- Claim C3 fails in the drain: with a data stream at input index 0 and a
video stream at input index 1 (output stream 0, assigned time base
1/90000), the main packet loop rescales into the assigned time base, but
the end-of-stream drain indexes the time-base vector with the input stream
index and rescales into the never-assigned `Rational(0,0)` placeholder
instead of the transcoder's own output stream's time base. -/
theorem drain_time_base_mismatch :
    (stream_mapping [Medium.other, Medium.video]).getD 1 (-1) = 0
    ∧ packet_loop_time_base_used [Medium.other, Medium.video]
        (fun i => if i = 0 then (1, 90000) else (1, 48000)) 1 = (1, 90000)
    ∧ drain_time_base_used [Medium.other, Medium.video]
        (fun i => if i = 0 then (1, 90000) else (1, 48000)) 1 = (0, 0)
    ∧ drain_time_base_used [Medium.other, Medium.video]
        (fun i => if i = 0 then (1, 90000) else (1, 48000)) 1
      ≠ (fun i => if i = 0 then ((1 : Int), (90000 : Int)) else (1, 48000))
          (((stream_mapping [Medium.other, Medium.video]).getD 1 (-1)).toNat) := by
  refine ⟨by decide, by decide, by decide, by decide⟩

/-- Abstract behaviour of a filter graph: feeding one frame yields a new
state plus the filtered frames that became available; flushing releases the
remaining buffered frames. A pass-through instance models the video
transcoder, which has no filter graph. -/
structure FilterModel (φ : Type) where
  step : φ → Int → φ × List Int
  flush : φ → List Int

/-- Abstract behaviour of an encoder: sending one frame yields a new state
plus the packets that became available; end-of-stream releases the
remaining buffered packets. -/
structure EncoderModel (ε : Type) where
  step : ε → Int → ε × List Int
  flush : ε → List Int

/-- Observable events of the end-of-input drain (video.rs 630-638). -/
inductive DrainEvent
  | eof_to_decoder
  | frame_decoded (pts : Int)
  | frame_encoded (pts : Int)
  | packet_written (pts : Int)
  | filter_flushed
  | eof_to_encoder
  deriving DecidableEq, Repr

/-- `send_frame_to_encoder` followed by
`receive_and_process_encoded_packets`, for a list of filtered frames. -/
def encode_frames {ε : Type} (E : EncoderModel ε) (e : ε) :
    List Int → ε × List DrainEvent
  | [] => (e, [])
  | p :: ps =>
    let r1 := E.step e p
    let r2 := encode_frames E r1.1 ps
    (r2.1, .frame_encoded p :: r1.2.map .packet_written ++ r2.2)

/-- `receive_and_process_decoded_frames` during the drain: each decoded
frame must carry a timestamp (else the drain aborts), is shifted by
`start_pts`, pushed through the filter graph, and the available filtered
frames are encoded and their packets written. -/
def drain_decoded {φ ε : Type} (F : FilterModel φ) (E : EncoderModel ε)
    (start_pts : Int) :
    φ → ε → List (Option Int) → Option (φ × ε × List DrainEvent)
  | f, e, [] => some (f, e, [])
  | _, _, none :: _ => none
  | f, e, some t :: rest =>
    let pts := t - start_pts
    let r1 := F.step f pts
    let r2 := encode_frames E e r1.2
    match drain_decoded F E start_pts r1.1 r2.1 rest with
    | none => none
    | some (f2, e2, evs) => some (f2, e2, .frame_decoded pts :: r2.2 ++ evs)

/-- The per-transcoder body of the drain loop (video.rs 630-638): signal
end-of-stream to the decoder and drain its remaining frames through the
per-frame pipeline; flush the filter graph and drain the remaining
filtered frames through encode+write; signal end-of-stream to the encoder
and write its remaining packets. -/
def drain_transcoder {φ ε : Type} (F : FilterModel φ) (E : EncoderModel ε)
    (start_pts : Int) (dec_pending : List (Option Int)) (f0 : φ) (e0 : ε) :
    Option (List DrainEvent) :=
  match drain_decoded F E start_pts f0 e0 dec_pending with
  | none => none
  | some (f1, e1, evs1) =>
    let r2 := encode_frames E e1 (F.flush f1)
    let evs3 := (E.flush r2.1).map DrainEvent.packet_written
    some ((DrainEvent.eof_to_decoder :: evs1)
      ++ (DrainEvent.filter_flushed :: r2.2)
      ++ (DrainEvent.eof_to_encoder :: evs3))

/-- Events that may occur while draining the decoder (stage one). -/
def stage_one_event : DrainEvent → Bool
  | .frame_decoded _ | .frame_encoded _ | .packet_written _ => true
  | _ => false

/-- Events that may occur while draining the flushed filter graph (stage
two): no decoded frames any more. -/
def stage_two_event : DrainEvent → Bool
  | .frame_encoded _ | .packet_written _ => true
  | _ => false

/-- Events that may occur after end-of-stream reaches the encoder (stage
three): only packet writes. -/
def stage_three_event : DrainEvent → Bool
  | .packet_written _ => true
  | _ => false

lemma stage_two_imp_one (ev : DrainEvent) (h : stage_two_event ev = true) :
    stage_one_event ev = true := by
  cases ev <;> simp_all [stage_one_event, stage_two_event]

lemma encode_frames_events {ε : Type} (E : EncoderModel ε) :
    ∀ (ps : List Int) (e : ε), ((encode_frames E e ps).2).all stage_two_event = true := by
  intro ps
  induction ps with
  | nil => intro e; rfl
  | cons p ps ih =>
    intro e
    simp only [encode_frames, List.all_cons, List.all_append, Bool.and_eq_true]
    refine ⟨⟨rfl, ?_⟩, ih (E.step e p).1⟩
    simp [List.all_map, stage_two_event, Function.comp]

lemma drain_decoded_events {φ ε : Type} (F : FilterModel φ) (E : EncoderModel ε)
    (s : Int) :
    ∀ (dp : List (Option Int)) (f : φ) (e : ε) (f2 : φ) (e2 : ε)
      (evs : List DrainEvent),
      drain_decoded F E s f e dp = some (f2, e2, evs) →
      evs.all stage_one_event = true
      ∧ ∀ t : Int, some t ∈ dp → DrainEvent.frame_decoded (t - s) ∈ evs := by
  intro dp
  induction dp with
  | nil =>
    intro f e f2 e2 evs h
    simp only [drain_decoded, Option.some.injEq, Prod.mk.injEq] at h
    obtain ⟨_, _, h3⟩ := h
    subst h3
    exact ⟨rfl, by simp⟩
  | cons o rest ih =>
    intro f e f2 e2 evs h
    cases o with
    | none => simp [drain_decoded] at h
    | some t =>
      rw [drain_decoded] at h
      cases hrec : drain_decoded F E s (F.step f (t - s)).1
          (encode_frames E e (F.step f (t - s)).2).1 rest with
      | none => rw [hrec] at h; cases h
      | some r =>
        obtain ⟨f3, e3, evs3⟩ := r
        rw [hrec] at h
        simp only [Option.some.injEq, Prod.mk.injEq] at h
        obtain ⟨_, _, h3⟩ := h
        subst h3
        obtain ⟨hall, hmem⟩ := ih _ _ f3 e3 evs3 hrec
        constructor
        · have h2 := encode_frames_events E (F.step f (t - s)).2 e
          have h2' : ((encode_frames E e (F.step f (t - s)).2).2).all
              stage_one_event = true := by
            rw [List.all_eq_true] at h2 ⊢
            exact fun ev hev => stage_two_imp_one ev (h2 ev hev)
          simp [List.all_cons, List.all_append, hall, h2', stage_one_event]
        · intro u hu
          rw [List.mem_cons] at hu
          rcases hu with hu | hu
          · obtain rfl : u = t := by simpa using hu
            exact List.mem_cons_self _ _
          · have hm := hmem u hu
            exact List.mem_cons_of_mem _ (List.mem_append_right _ hm)

/-- Claim C7: a successful end-of-input drain decomposes into exactly three
stages in order — end-of-stream to the decoder followed by the remaining
decoded frames being pushed through the per-frame pipeline (the only stage
producing decoded-frame events, and it contains one for every pending
decoded frame), then the filter-graph flush whose remaining frames are
only encoded and written, and only then end-of-stream to the encoder,
after which only packet writes occur. -/
theorem drain_three_stage_order {φ ε : Type} (F : FilterModel φ)
    (E : EncoderModel ε) (s : Int) (dp : List (Option Int)) (f0 : φ) (e0 : ε)
    (evs : List DrainEvent)
    (hok : drain_transcoder F E s dp f0 e0 = some evs) :
    ∃ t1 t2 t3,
      evs = (DrainEvent.eof_to_decoder :: t1) ++ (DrainEvent.filter_flushed :: t2)
        ++ (DrainEvent.eof_to_encoder :: t3)
      ∧ t1.all stage_one_event = true
      ∧ t2.all stage_two_event = true
      ∧ t3.all stage_three_event = true
      ∧ ∀ t : Int, some t ∈ dp → DrainEvent.frame_decoded (t - s) ∈ t1 := by
  rw [drain_transcoder] at hok
  cases hd : drain_decoded F E s f0 e0 dp with
  | none => rw [hd] at hok; cases hok
  | some r =>
    obtain ⟨f1, e1, evs1⟩ := r
    rw [hd] at hok
    simp only [Option.some.injEq] at hok
    subst hok
    obtain ⟨hall1, hmem1⟩ := drain_decoded_events F E s dp f0 e0 f1 e1 evs1 hd
    refine ⟨evs1, (encode_frames E e1 (F.flush f1)).2,
      (E.flush (encode_frames E e1 (F.flush f1)).1).map DrainEvent.packet_written,
      rfl, hall1, encode_frames_events E (F.flush f1) e1, ?_, hmem1⟩
    rw [List.all_eq_true]
    intro ev hev
    rw [List.mem_map] at hev
    obtain ⟨x, _, hx⟩ := hev
    subst hx
    rfl

/-- A filter that passes every frame straight through and buffers nothing:
the behaviour of the video transcoder's (absent) filter stage. -/
def passthrough_filter : FilterModel Unit :=
  ⟨fun _ p => ((), [p]), fun _ => []⟩

/-- An encoder that emits one packet per frame and buffers nothing. -/
def passthrough_encoder : EncoderModel Unit :=
  ⟨fun _ p => ((), [p]), fun _ => []⟩

/-- Claim C7 witness: a concrete drain with one pending decoded frame. -/
theorem drain_three_stage_order_witness :
    ∃ t1 t2 t3,
      ([DrainEvent.eof_to_decoder, DrainEvent.frame_decoded 3,
        DrainEvent.frame_encoded 3, DrainEvent.packet_written 3,
        DrainEvent.filter_flushed, DrainEvent.eof_to_encoder] : List DrainEvent)
        = (DrainEvent.eof_to_decoder :: t1) ++ (DrainEvent.filter_flushed :: t2)
          ++ (DrainEvent.eof_to_encoder :: t3)
      ∧ t1.all stage_one_event = true
      ∧ t2.all stage_two_event = true
      ∧ t3.all stage_three_event = true
      ∧ ∀ t : Int, some t ∈ [some (5 : Int)] → DrainEvent.frame_decoded (t - 2) ∈ t1 :=
  drain_three_stage_order passthrough_filter passthrough_encoder 2 [some 5] () ()
    [DrainEvent.eof_to_decoder, DrainEvent.frame_decoded 3,
      DrainEvent.frame_encoded 3, DrainEvent.packet_written 3,
      DrainEvent.filter_flushed, DrainEvent.eof_to_encoder] (by rfl)

/-- video.rs 528-537: the audio overlay filter specification — the
`format!` template when the overlay file exists, the identity filter
`anull` otherwise. -/
def overlay_audio_filter_spec (overlay_exists : Bool) (path : String) : String :=
  if overlay_exists then
    "amovie=" ++ path ++
      ",atempo=1.25,volume=1.2 [ov]; [in]volume=0.8 [in_vol]; [in_vol][ov] amix=inputs=2:duration=shortest [out]"
  else "anull"

/-- Claim C6: with no overlay file the filter specification is exactly the
identity filter `anull`; with an overlay file it decodes the overlay path
as a second source (`amovie`), applies the 1.25x tempo stretch and 1.2x
volume gain on the narration branch, the 0.8x attenuation on the
program-audio branch, and mixes the two branches with duration=shortest
semantics. -/
theorem overlay_filter_spec_thm (p : String) :
    overlay_audio_filter_spec false p = "anull"
    ∧ overlay_audio_filter_spec true p
      = "amovie=" ++ p ++ "," ++ "atempo=1.25" ++ "," ++ "volume=1.2"
        ++ " [ov]; [in]" ++ "volume=0.8" ++ " [in_vol]; [in_vol][ov] "
        ++ "amix=inputs=2:duration=shortest" ++ " [out]" := by
  constructor
  · rfl
  · have h0 : overlay_audio_filter_spec true p
        = "amovie=" ++ p ++
          ",atempo=1.25,volume=1.2 [ov]; [in]volume=0.8 [in_vol]; [in_vol][ov] amix=inputs=2:duration=shortest [out]" :=
      rfl
    have h1 : (",atempo=1.25,volume=1.2 [ov]; [in]volume=0.8 [in_vol]; [in_vol][ov] amix=inputs=2:duration=shortest [out]" : String)
        = "," ++ ("atempo=1.25" ++ ("," ++ ("volume=1.2" ++ (" [ov]; [in]"
          ++ ("volume=0.8" ++ (" [in_vol]; [in_vol][ov] "
          ++ ("amix=inputs=2:duration=shortest" ++ " [out]"))))))) := by decide
    rw [h0, h1]
    simp only [String.append_assoc]

end Annotai
